import Mathlib

/-!
Shallow embedding of the hyperfunc runtime (src/index.ts).

The library registers "hyper functions" (description + zod object schema +
handler) in a name-keyed store, exports them as OpenAI chat-completion tool
descriptors, and dispatches incoming tool calls: look the name up (asserting
it exists), JSON-parse the raw argument string, validate the parsed value
with the zod schema's safeParse, then invoke the handler with the validated
data and the caller-supplied context, awaiting a returned promise.

Modelling decisions:
- JSON values are the inductive `Json`; numbers are `Int` (no claim depends
  on float semantics).
- The zod object schemas that `hyper` builds (`z.object` over per-argument
  primitive nodes, possibly `.optional()` and `.describe(...)`) are
  `ZodObjectSchema`; `safeParse` validates an input JSON value against it,
  stripping unknown keys as zod does by default.
- `zodToJsonSchema` models the external zod-to-json-schema converter on such
  object schemas: it always emits `type: "object"` and `properties`, and
  emits `required` only when at least one property is required (the empty
  `required` list is omitted), which is that library's observable behaviour.
- `JSON.parse` is the JavaScript runtime's parser; it is passed to
  `callTool` explicitly as a `jsonParse : String → Except String Json`
  parameter, since only parse success/failure matters to the code.
- The JS `Map` holding the registry is an insertion-ordered association
  list; `mapSet` keeps an existing key's position and appends new keys,
  `mapGet` returns the entry for a key, exactly `Map.prototype.set/get`.
- Handlers may return a value, return a promise (that resolves or rejects),
  or throw synchronously: `HandlerOutcome`.  `callTool` returns an
  `Except (CallError E) V` (assertion failure, propagated JSON parse error,
  the synthesized validation error, or a propagated handler error) paired
  with the list of handler invocations (validated arguments, context) that
  occurred, so that "the handler is invoked exactly once / never" is a
  statement about the code, not a side channel.
-/

inductive Json where
  | null : Json
  | bool (b : Bool) : Json
  | num (n : Int) : Json
  | str (s : String) : Json
  | arr (elems : List Json) : Json
  | obj (fields : List (String × Json)) : Json

/-- The primitive zod argument nodes used with the `hyper` builder. -/
inductive ZodPrim where
  | number : ZodPrim
  | string : ZodPrim
  | boolean : ZodPrim
deriving DecidableEq

/-- One named argument's schema node: a primitive type, an optionality flag
(`.optional()`), and an optional documentation string (`.describe(...)`). -/
structure ZodField where
  prim : ZodPrim
  optional : Bool
  description : Option String

/-- The object schema `z.object(args)` built by `hyper`. -/
structure ZodObjectSchema where
  fields : List (String × ZodField)

/-- Whether a primitive node accepts a JSON value (zod validation of one
property). -/
def ZodPrim.accepts : ZodPrim → Json → Option Json
  | .number, .num n => some (.num n)
  | .string, .str s => some (.str s)
  | .boolean, .bool b => some (.bool b)
  | _, _ => none

/-- Validate the properties of a parsed JSON object against the schema's
fields: required fields must be present and well-typed, optional fields may
be absent, unknown keys are stripped (zod's default object behaviour). -/
def parseFields (kvs : List (String × Json)) :
    List (String × ZodField) → Option (List (String × Json))
  | [] => some []
  | (name, f) :: rest =>
    match parseFields kvs rest with
    | none => none
    | some tail =>
      match kvs.lookup name with
      | some v =>
        match f.prim.accepts v with
        | some v' => some ((name, v') :: tail)
        | none => none
      | none => if f.optional then some tail else none

/-- zod's non-throwing `safeParse`: `some validatedData` on success, `none`
on a validation failure (non-object input, missing required property, or a
type mismatch). -/
def ZodObjectSchema.safeParse (s : ZodObjectSchema) : Json → Option (List (String × Json))
  | .obj kvs => parseFields kvs s.fields
  | _ => none

def ZodPrim.typeName : ZodPrim → String
  | .number => "number"
  | .string => "string"
  | .boolean => "boolean"

/-- The JSON-Schema node the converter emits for one property. -/
def ZodField.toJsonSchema (f : ZodField) : Json :=
  match f.description with
  | some d => .obj [("type", .str f.prim.typeName), ("description", .str d)]
  | none => .obj [("type", .str f.prim.typeName)]

/-- The converter's output, with each of the three fields the translator
looks for possibly absent (the `in` checks of src/index.ts). -/
structure ConvertedSchema where
  type? : Option String
  properties? : Option (List (String × Json))
  required? : Option (List String)

/-- The external zod-to-json-schema converter on the object schemas `hyper`
builds: `type` and `properties` are always present; `required` lists the
non-optional property names and is omitted when that list is empty. -/
def zodToJsonSchema (s : ZodObjectSchema) : ConvertedSchema :=
  let req := (s.fields.filter (fun kv => !kv.2.optional)).map Prod.fst
  { type? := some "object"
    properties? := some (s.fields.map (fun kv => (kv.1, kv.2.toJsonSchema)))
    required? := if req.isEmpty then none else some req }

/-- A handler's possible behaviours: return a plain value, return a promise
(resolving to a value or rejecting with an error), or throw synchronously. -/
inductive HandlerOutcome (V E : Type) where
  | value (v : V) : HandlerOutcome V E
  | promise (r : Except E V) : HandlerOutcome V E
  | raise (e : E) : HandlerOutcome V E

/-- What awaiting the handler's result yields when it succeeds: the value of
a synchronous return, or the resolution of a returned promise. -/
def HandlerOutcome.resolvesTo {V E : Type} : HandlerOutcome V E → Option V
  | .value v => some v
  | .promise (.ok v) => some v
  | .promise (.error _) => none
  | .raise _ => none

/-- `HyperFunctionData<Context>` of src/index.ts; the handler's stored
signature is the erased one (validated data and context in, outcome out). -/
structure HyperFunctionData (Ctx V E : Type) where
  _description : String
  _schema : ZodObjectSchema
  _handler : List (String × Json) → Ctx → HandlerOutcome V E

/-- The `function` part of an exported tool descriptor. -/
structure ToolFunctionDef where
  name : String
  description : String
  parameters : Json

/-- An exported tool descriptor: `{function: {...}, type: "function"}`. -/
structure ChatCompletionTool where
  function : ToolFunctionDef
  type : String

/-- The `parameters` computation of `hyperFunctionToTool`: the three fields
`type`, `properties`, `required` copied unchanged when all are present in
the converted schema, the empty object otherwise. -/
def toolParameters (schema : ConvertedSchema) : Json :=
  match schema.type?, schema.properties?, schema.required? with
  | some t, some props, some req =>
    .obj [("type", .str t), ("properties", .obj props), ("required", .arr (req.map .str))]
  | _, _, _ => .obj []

/-- `hyperFunctionToTool` of src/index.ts. -/
def hyperFunctionToTool {Ctx V E : Type} (name : String)
    (data : HyperFunctionData Ctx V E) : ChatCompletionTool :=
  let schema := zodToJsonSchema data._schema
  { function :=
      { name := name
        description := data._description
        parameters := toolParameters schema }
    type := "function" }

/-- JS `Map.prototype.get`: the value stored under a key, if any. -/
def mapGet {α : Type} (m : List (String × α)) (k : String) : Option α :=
  match m with
  | [] => none
  | kv :: rest => if kv.1 = k then some kv.2 else mapGet rest k

/-- JS `Map.prototype.set`: replace in place when the key is present
(keeping its position), append at the end otherwise. -/
def mapSet {α : Type} (m : List (String × α)) (k : String) (v : α) :
    List (String × α) :=
  match m with
  | [] => [(k, v)]
  | kv :: rest => if kv.1 = k then (k, v) :: rest else kv :: mapSet rest k v

/-- `new Map(entries)`: insert the entries in order into an empty map. -/
def newMap {α : Type} (entries : List (String × α)) : List (String × α) :=
  entries.foldl (fun m kv => mapSet m kv.1 kv.2) []

/-- The state of the object `hyperStore` returns: its `functions` map. -/
structure HyperStore (Ctx V E : Type) where
  functions : List (String × HyperFunctionData Ctx V E)

/-- `hyperStore` of src/index.ts: `functions: new Map(Object.entries(fs))`,
with the initial record given as its entry list. -/
def hyperStore {Ctx V E : Type} (fs : List (String × HyperFunctionData Ctx V E)) :
    HyperStore Ctx V E :=
  ⟨newMap fs⟩

/-- The store's `set` method. -/
def HyperStore.set {Ctx V E : Type} (s : HyperStore Ctx V E) (name : String)
    (hf : HyperFunctionData Ctx V E) : HyperStore Ctx V E :=
  ⟨mapSet s.functions name hf⟩

/-- The `function` part of an incoming tool call: name and raw argument
string. -/
structure ToolCallFunction where
  name : String
  arguments : String

/-- An incoming `ChatCompletionMessageToolCall`, restricted to the field
`callTool` reads. -/
structure ToolCall where
  function : ToolCallFunction

/-- The failure modes of `callTool`: the `assert` on lookup, a propagated
`JSON.parse` error, the synthesized validation error, and a propagated
handler failure. -/
inductive CallError (E : Type) where
  | assertionFailed : CallError E
  | jsonParseError (msg : String) : CallError E
  | validationError (msg : String) : CallError E
  | handlerError (e : E) : CallError E

/-- The message `callTool` throws on validation failure (the `ind` template
of src/index.ts, dedented). -/
def badArgsMessage (name : String) : String :=
  "There was an issue with parsing the function arguments,\nplease rewrite it by calling the " ++
    name ++ " function with the correct parameters."

/-- The store's `callTool` method.  Besides the dispatch result it returns
the list of handler invocations (validated arguments, context) performed,
in order; the body invokes the handler at exactly one place, so the list is
`[]` on the paths that never reach the handler and a singleton otherwise. -/
def HyperStore.callTool {Ctx V E : Type} (s : HyperStore Ctx V E)
    (jsonParse : String → Except String Json) (data : ToolCall) (context : Ctx) :
    Except (CallError E) V × List (List (String × Json) × Ctx) :=
  match mapGet s.functions data.function.name with
  | none => (.error .assertionFailed, [])
  | some hyperFunction =>
    match jsonParse data.function.arguments with
    | .error e => (.error (.jsonParseError e), [])
    | .ok parsed =>
      match hyperFunction._schema.safeParse parsed with
      | none => (.error (.validationError (badArgsMessage data.function.name)), [])
      | some validated =>
        match hyperFunction._handler validated context with
        | .value v => (.ok v, [(validated, context)])
        | .promise (.ok v) => (.ok v, [(validated, context)])
        | .promise (.error e) => (.error (.handlerError e), [(validated, context)])
        | .raise e => (.error (.handlerError e), [(validated, context)])

/-- The store's `asTools` method. -/
def HyperStore.asTools {Ctx V E : Type} (s : HyperStore Ctx V E) :
    List ChatCompletionTool :=
  s.functions.map (fun kv => hyperFunctionToTool kv.1 kv.2)

/-- `hyper` of src/index.ts: build a definition from a description, the
named argument nodes, and a handler (stored with erased argument types). -/
def hyper {Ctx V E : Type} (description : String)
    (args : List (String × ZodField))
    (handler : List (String × Json) → Ctx → HandlerOutcome V E) :
    HyperFunctionData Ctx V E :=
  { _schema := ⟨args⟩
    _handler := handler
    _description := description }

/-- Pre-compose a definition's handler with a function on contexts.  Used to
state that the dispatcher is natural in the opaque context: it only ever
hands the context to handlers, so re-indexing the context commutes with
dispatch. -/
def HyperFunctionData.mapCtx {Ctx Ctx2 V E : Type} (φ : Ctx → Ctx2)
    (d : HyperFunctionData Ctx2 V E) : HyperFunctionData Ctx V E :=
  { _description := d._description
    _schema := d._schema
    _handler := fun a c => d._handler a (φ c) }

/-- Pre-compose every handler of a store with a function on contexts. -/
def HyperStore.mapCtx {Ctx Ctx2 V E : Type} (φ : Ctx → Ctx2)
    (s : HyperStore Ctx2 V E) : HyperStore Ctx V E :=
  ⟨s.functions.map (fun kv => (kv.1, kv.2.mapCtx φ))⟩

/-! Concrete instances (the add_two scenario of spec section 8 and a
context-reading function) used to exercise the theorems on closed inputs. -/

def demoSchema : ZodObjectSchema :=
  ⟨[("a", ⟨.number, false, none⟩), ("b", ⟨.number, false, none⟩)]⟩

def demoHandler : List (String × Json) → Unit → HandlerOutcome Int String :=
  fun args _ =>
    match args.lookup "a", args.lookup "b" with
    | some (.num a), some (.num b) => .value (a + b)
    | _, _ => .raise "missing arguments"

def demoHF : HyperFunctionData Unit Int String :=
  { _description := "add two numbers"
    _schema := demoSchema
    _handler := demoHandler }

def demoStore : HyperStore Unit Int String := hyperStore [("add_two", demoHF)]

def demoGoodArgs : String := "\x7b\"a\": 2, \"b\": 3\x7d"

def demoBadArgs : String := "\x7b\"a\": \"x\", \"b\": 3\x7d"

/-- A concrete stand-in for the runtime JSON parser, defined on the argument
strings the demo scenarios use. -/
def demoParse : String → Except String Json :=
  fun s =>
    if s = demoGoodArgs then .ok (.obj [("a", .num 2), ("b", .num 3)])
    else if s = demoBadArgs then .ok (.obj [("a", .str "x"), ("b", .num 3)])
    else .error "SyntaxError: Unexpected token"

/-- A function whose handler returns the execution context itself. -/
def ctxHF : HyperFunctionData Int Int String :=
  { _description := "returns the context"
    _schema := ⟨[]⟩
    _handler := fun _ c => .value c }

def ctxStore : HyperStore Int Int String := hyperStore [("get_ctx", ctxHF)]

def emptyObjArgs : String := "\x7b\x7d"

def ctxParse : String → Except String Json :=
  fun s =>
    if s = emptyObjArgs then .ok (.obj [])
    else .error "SyntaxError: Unexpected end of input"

/-! Helper lemmas about the `Map` model. -/

theorem mapGet_mapSet_self {α : Type} (m : List (String × α)) (k : String) (v : α) :
    mapGet (mapSet m k v) k = some v := by
  induction m with
  | nil => simp [mapSet, mapGet]
  | cons kv rest ih =>
    by_cases h : kv.1 = k
    · simp [mapSet, mapGet, h]
    · simp [mapSet, mapGet, h, ih]

theorem mapSet_mapSet_same {α : Type} (m : List (String × α)) (k : String) (v1 v2 : α) :
    mapSet (mapSet m k v1) k v2 = mapSet m k v2 := by
  induction m with
  | nil => simp [mapSet]
  | cons kv rest ih =>
    by_cases h : kv.1 = k
    · simp [mapSet, h]
    · simp [mapSet, h, ih]

theorem mapSet_of_not_mem_keys {α : Type} {m : List (String × α)} {k : String}
    (h : k ∉ m.map Prod.fst) (v : α) : mapSet m k v = m ++ [(k, v)] := by
  induction m with
  | nil => simp [mapSet]
  | cons kv rest ih =>
    simp only [List.map_cons, List.mem_cons, not_or] at h
    have hk : kv.1 ≠ k := fun hkk => h.1 hkk.symm
    simp [mapSet, hk, ih h.2]

theorem mapSet_keys_of_mem_keys {α : Type} {m : List (String × α)} {k : String}
    (h : k ∈ m.map Prod.fst) (v : α) :
    (mapSet m k v).map Prod.fst = m.map Prod.fst := by
  induction m with
  | nil => simp at h
  | cons kv rest ih =>
    by_cases hk : kv.1 = k
    · simp [mapSet, hk]
    · simp only [List.map_cons, List.mem_cons] at h
      rcases h with h | h
    <;> first
      | exact absurd h.symm hk
      | simp [mapSet, hk, ih h]

theorem mapGet_map {α β : Type} (g : α → β) (m : List (String × α)) (k : String) :
    mapGet (m.map (fun kv => (kv.1, g kv.2))) k = (mapGet m k).map g := by
  induction m with
  | nil => simp [mapGet]
  | cons kv rest ih =>
    by_cases h : kv.1 = k
    · simp [mapGet, h]
    · simp [mapGet, h, ih]

theorem newMap_of_nodup_aux {α : Type} (entries : List (String × α)) :
    ∀ acc : List (String × α), (entries.map Prod.fst).Nodup →
      (∀ k ∈ entries.map Prod.fst, k ∉ acc.map Prod.fst) →
      entries.foldl (fun m kv => mapSet m kv.1 kv.2) acc = acc ++ entries := by
  induction entries with
  | nil => intro acc _ _; simp
  | cons kv rest ih =>
    intro acc hd hdisj
    simp only [List.foldl_cons]
    have hnotin : kv.1 ∉ acc.map Prod.fst := hdisj kv.1 (by simp)
    rw [mapSet_of_not_mem_keys hnotin kv.2]
    simp only [List.map_cons, List.nodup_cons] at hd
    have hstep := ih (acc ++ [kv]) hd.2 (fun k hk => by
      simp only [List.map_append, List.mem_append, List.map_cons, List.map_nil,
        List.mem_singleton, not_or]
      exact ⟨hdisj k (by simp [hk]), fun hkk => hd.1 (hkk ▸ hk)⟩)
    simpa using hstep

theorem newMap_of_nodup {α : Type} (entries : List (String × α))
    (hd : (entries.map Prod.fst).Nodup) : newMap entries = entries := by
  simpa using newMap_of_nodup_aux entries [] hd (by simp)

theorem mapSet_mem_self {α : Type} (m : List (String × α)) (k : String) (v : α) :
    (k, v) ∈ mapSet m k v := by
  induction m with
  | nil => simp [mapSet]
  | cons kv rest ih =>
    by_cases h : kv.1 = k
    · simp [mapSet, h]
    · simp [mapSet, h, ih]

/-! Helper lemmas about the dispatch pipeline. -/

theorem callTool_trace_shape {Ctx V E : Type}
    (jsonParse : String → Except String Json) (s : HyperStore Ctx V E)
    (data : ToolCall) (context : Ctx) :
    (s.callTool jsonParse data context).2 = [] ∨
    ∃ validated, (s.callTool jsonParse data context).2 = [(validated, context)] := by
  cases hg : mapGet s.functions data.function.name with
  | none => left; simp [HyperStore.callTool, hg]
  | some hf =>
    cases hp : jsonParse data.function.arguments with
    | error e => left; simp [HyperStore.callTool, hg, hp]
    | ok parsed =>
      cases hv : hf._schema.safeParse parsed with
      | none => left; simp [HyperStore.callTool, hg, hp, hv]
      | some validated =>
        cases hh : hf._handler validated context with
        | value v =>
          exact Or.inr ⟨validated, by simp [HyperStore.callTool, hg, hp, hv, hh]⟩
        | promise r =>
          cases r with
          | ok v =>
            exact Or.inr ⟨validated, by simp [HyperStore.callTool, hg, hp, hv, hh]⟩
          | error e =>
            exact Or.inr ⟨validated, by simp [HyperStore.callTool, hg, hp, hv, hh]⟩
        | raise e =>
          exact Or.inr ⟨validated, by simp [HyperStore.callTool, hg, hp, hv, hh]⟩

theorem mapCtx_schema {Ctx Ctx2 V E : Type} (φ : Ctx → Ctx2)
    (d : HyperFunctionData Ctx2 V E) : (d.mapCtx φ)._schema = d._schema := rfl

theorem mapCtx_handler {Ctx Ctx2 V E : Type} (φ : Ctx → Ctx2)
    (d : HyperFunctionData Ctx2 V E) (a : List (String × Json)) (c : Ctx) :
    (d.mapCtx φ)._handler a c = d._handler a (φ c) := rfl

theorem callTool_mapCtx {Ctx Ctx2 V E : Type}
    (jsonParse : String → Except String Json) (φ : Ctx → Ctx2)
    (s2 : HyperStore Ctx2 V E) (data : ToolCall) (context : Ctx) :
    ((s2.mapCtx φ).callTool jsonParse data context).1 =
      (s2.callTool jsonParse data (φ context)).1 ∧
    ((s2.mapCtx φ).callTool jsonParse data context).2.map
        (fun ac => (ac.1, φ ac.2)) =
      (s2.callTool jsonParse data (φ context)).2 := by
  cases hg : mapGet s2.functions data.function.name with
  | none =>
    constructor <;>
      simp [HyperStore.callTool, HyperStore.mapCtx, mapCtx_schema, mapCtx_handler,
        mapGet_map, hg]
  | some hf =>
    cases hp : jsonParse data.function.arguments with
    | error e =>
      constructor <;>
        simp [HyperStore.callTool, HyperStore.mapCtx, mapCtx_schema, mapCtx_handler,
          mapGet_map, hg, hp]
    | ok parsed =>
      cases hv : hf._schema.safeParse parsed with
      | none =>
        constructor <;>
          simp [HyperStore.callTool, HyperStore.mapCtx, mapCtx_schema, mapCtx_handler,
            mapGet_map, hg, hp, hv]
      | some validated =>
        cases hh : hf._handler validated (φ context) with
        | value v =>
          constructor <;>
            simp [HyperStore.callTool, HyperStore.mapCtx, mapCtx_schema, mapCtx_handler,
              mapGet_map, hg, hp, hv, hh]
        | promise r =>
          cases r with
          | ok v =>
            constructor <;>
              simp [HyperStore.callTool, HyperStore.mapCtx, mapCtx_schema, mapCtx_handler,
                mapGet_map, hg, hp, hv, hh]
          | error e =>
            constructor <;>
              simp [HyperStore.callTool, HyperStore.mapCtx, mapCtx_schema, mapCtx_handler,
                mapGet_map, hg, hp, hv, hh]
        | raise e =>
          constructor <;>
            simp [HyperStore.callTool, HyperStore.mapCtx, mapCtx_schema, mapCtx_handler,
              mapGet_map, hg, hp, hv, hh]

/-! The claims. -/

/-- C1: when the requested name is registered, the raw argument string
parses, the parsed value validates against the definition's schema, and the
handler's outcome resolves to a value `v` (a synchronous return or an
awaited promise), `callTool` resolves to exactly `v` and the handler is
invoked exactly once, with the validated arguments and the caller-supplied
context. -/
theorem callTool_valid_dispatch {Ctx V E : Type}
    (jsonParse : String → Except String Json) (s : HyperStore Ctx V E)
    (data : ToolCall) (context : Ctx) (hf : HyperFunctionData Ctx V E)
    (parsed : Json) (validated : List (String × Json)) (v : V)
    (hlook : mapGet s.functions data.function.name = some hf)
    (hparse : jsonParse data.function.arguments = .ok parsed)
    (hvalid : hf._schema.safeParse parsed = some validated)
    (hres : (hf._handler validated context).resolvesTo = some v) :
    s.callTool jsonParse data context = (.ok v, [(validated, context)]) := by
  cases hh : hf._handler validated context with
  | value w =>
    rw [hh] at hres
    simp only [HandlerOutcome.resolvesTo, Option.some.injEq] at hres
    subst hres
    simp [HyperStore.callTool, hlook, hparse, hvalid, hh]
  | promise r =>
    cases r with
    | ok w =>
      rw [hh] at hres
      simp only [HandlerOutcome.resolvesTo, Option.some.injEq] at hres
      subst hres
      simp [HyperStore.callTool, hlook, hparse, hvalid, hh]
    | error e =>
      rw [hh] at hres
      simp [HandlerOutcome.resolvesTo] at hres
  | raise e =>
    rw [hh] at hres
    simp [HandlerOutcome.resolvesTo] at hres

/-- C1 witness: the add_two scenario of spec section 8 — calling add_two
with a JSON object binding a to 2 and b to 3 yields 5, with one handler
invocation. -/
theorem callTool_valid_dispatch_witness :
    demoStore.callTool demoParse ⟨⟨"add_two", demoGoodArgs⟩⟩ () =
      (.ok 5, [([("a", Json.num 2), ("b", Json.num 3)], ())]) :=
  callTool_valid_dispatch demoParse demoStore ⟨⟨"add_two", demoGoodArgs⟩⟩ ()
    demoHF (.obj [("a", .num 2), ("b", .num 3)])
    [("a", Json.num 2), ("b", Json.num 3)] 5 rfl rfl rfl rfl

/-- C2: when the requested name is registered and the raw arguments parse
but fail schema validation, `callTool` rejects with the synthesized
validation error — whose message contains the requested function's name —
and the handler is never invoked. -/
theorem callTool_validation_failure {Ctx V E : Type}
    (jsonParse : String → Except String Json) (s : HyperStore Ctx V E)
    (data : ToolCall) (context : Ctx) (hf : HyperFunctionData Ctx V E)
    (parsed : Json)
    (hlook : mapGet s.functions data.function.name = some hf)
    (hparse : jsonParse data.function.arguments = .ok parsed)
    (hvalid : hf._schema.safeParse parsed = none) :
    s.callTool jsonParse data context =
      (.error (.validationError (badArgsMessage data.function.name)), []) ∧
    ∃ pre post, badArgsMessage data.function.name = pre ++ data.function.name ++ post := by
  refine ⟨?_, "There was an issue with parsing the function arguments,\nplease rewrite it by calling the ",
    " function with the correct parameters.", rfl⟩
  simp [HyperStore.callTool, hlook, hparse, hvalid]

/-- C2 witness: the add_two scenario with a string where a number is
expected — rejected with the message naming add_two, handler not invoked. -/
theorem callTool_validation_failure_witness :
    demoStore.callTool demoParse ⟨⟨"add_two", demoBadArgs⟩⟩ () =
      (.error (.validationError (badArgsMessage "add_two")), []) ∧
    ∃ pre post, badArgsMessage "add_two" = pre ++ "add_two" ++ post :=
  callTool_validation_failure demoParse demoStore ⟨⟨"add_two", demoBadArgs⟩⟩ ()
    demoHF (.obj [("a", .str "x"), ("b", .num 3)]) rfl rfl rfl

/-- C3: a request naming an unregistered function fails with the assertion
failure — a failure of a class distinct from the recoverable validation
error — and no handler is invoked. -/
theorem callTool_unregistered {Ctx V E : Type}
    (jsonParse : String → Except String Json) (s : HyperStore Ctx V E)
    (data : ToolCall) (context : Ctx)
    (hlook : mapGet s.functions data.function.name = none) :
    s.callTool jsonParse data context = (.error .assertionFailed, []) ∧
    ∀ m : String, (CallError.assertionFailed : CallError E) ≠ .validationError m := by
  refine ⟨?_, fun m h => CallError.noConfusion h⟩
  simp [HyperStore.callTool, hlook]

/-- C3 witness: calling the name nonexistent against the demo registry. -/
theorem callTool_unregistered_witness :
    demoStore.callTool demoParse ⟨⟨"nonexistent", demoGoodArgs⟩⟩ () =
      (.error .assertionFailed, []) ∧
    ∀ m : String, (CallError.assertionFailed : CallError String) ≠ .validationError m :=
  callTool_unregistered demoParse demoStore ⟨⟨"nonexistent", demoGoodArgs⟩⟩ () rfl

/-- C4: the translator emits as `parameters` exactly the three fields
`type`, `properties`, `required` of the converted schema, unchanged, when
all three are present; when any of the three is absent it emits the empty
object instead. -/
theorem hyperFunctionToTool_parameters {Ctx V E : Type} (name : String)
    (d : HyperFunctionData Ctx V E) :
    (∀ t props req,
        (zodToJsonSchema d._schema).type? = some t →
        (zodToJsonSchema d._schema).properties? = some props →
        (zodToJsonSchema d._schema).required? = some req →
        (hyperFunctionToTool name d).function.parameters =
          Json.obj [("type", .str t), ("properties", .obj props),
            ("required", .arr (req.map .str))]) ∧
    (((zodToJsonSchema d._schema).type? = none ∨
        (zodToJsonSchema d._schema).properties? = none ∨
        (zodToJsonSchema d._schema).required? = none) →
      (hyperFunctionToTool name d).function.parameters = Json.obj []) := by
  have hp : (hyperFunctionToTool name d).function.parameters =
      toolParameters (zodToJsonSchema d._schema) := rfl
  constructor
  · intro t props req ht hpr hrq
    rw [hp]
    unfold toolParameters
    rw [ht, hpr, hrq]
  · intro h
    rw [hp]
    unfold toolParameters
    rcases h with h | h | h <;> rw [h] <;> rfl

/-- C4 witness: the add_two definition's descriptor carries the converted
schema's type, properties and required fields verbatim. -/
theorem hyperFunctionToTool_parameters_witness :
    (hyperFunctionToTool "add_two" demoHF).function.parameters =
      Json.obj [("type", .str "object"),
        ("properties", .obj [("a", .obj [("type", .str "number")]),
          ("b", .obj [("type", .str "number")])]),
        ("required", .arr [.str "a", .str "b"])] :=
  (hyperFunctionToTool_parameters "add_two" demoHF).1 "object"
    [("a", .obj [("type", .str "number")]), ("b", .obj [("type", .str "number")])]
    ["a", "b"] rfl rfl rfl

/-- C5: under the registry's unique-name invariant, `asTools` contains
exactly one descriptor named after each registered entry, and every
descriptor it returns is the wire-shaped translation of a registered
definition: `type` is the string function, and `function` carries the
registered name, the definition's description and the translated
parameters. -/
theorem asTools_descriptors {Ctx V E : Type} (s : HyperStore Ctx V E)
    (hnd : (s.functions.map Prod.fst).Nodup) :
    (∀ name hf, (name, hf) ∈ s.functions →
        s.asTools.countP (fun t => t.function.name == name) = 1) ∧
    (∀ t, t ∈ s.asTools → ∃ name hf, (name, hf) ∈ s.functions ∧
        t = hyperFunctionToTool name hf ∧ t.type = "function" ∧
        t.function.name = name ∧ t.function.description = hf._description) := by
  constructor
  · intro name hf hmem
    unfold HyperStore.asTools
    rw [List.countP_map]
    have h1 : ((fun t => t.function.name == name) ∘
        fun kv : String × HyperFunctionData Ctx V E => hyperFunctionToTool kv.1 kv.2) =
        fun kv : String × HyperFunctionData Ctx V E => kv.1 == name := rfl
    rw [h1]
    have h2 : s.functions.countP
        (fun kv : String × HyperFunctionData Ctx V E => kv.1 == name) =
        (s.functions.map Prod.fst).countP (fun k => k == name) := by
      rw [List.countP_map]
      rfl
    rw [h2]
    exact List.count_eq_one_of_mem hnd (List.mem_map_of_mem Prod.fst hmem)
  · intro t ht
    unfold HyperStore.asTools at ht
    rcases List.mem_map.mp ht with ⟨kv, hkv, rfl⟩
    exact ⟨kv.1, kv.2, hkv, rfl, rfl, rfl, rfl⟩

/-- C5 witness: the demo registry exports exactly one descriptor named
add_two. -/
theorem asTools_descriptors_witness :
    demoStore.asTools.countP (fun t => t.function.name == "add_two") = 1 :=
  (asTools_descriptors demoStore (by decide)).1 "add_two" demoHF
    (show ("add_two", demoHF) ∈ [("add_two", demoHF)] from List.mem_singleton.mpr rfl)

/-- C6: setting the same name twice leaves the registry exactly as a single
set of the second definition would: the name maps to the second definition
only, and `asTools` exports the second definition's descriptor for it. -/
theorem set_set_last_write_wins {Ctx V E : Type} (s : HyperStore Ctx V E)
    (name : String) (d1 d2 : HyperFunctionData Ctx V E) :
    (s.set name d1).set name d2 = s.set name d2 ∧
    mapGet ((s.set name d1).set name d2).functions name = some d2 ∧
    hyperFunctionToTool name d2 ∈ ((s.set name d1).set name d2).asTools := by
  have h1 : (s.set name d1).set name d2 = s.set name d2 := by
    show (⟨mapSet (mapSet s.functions name d1) name d2⟩ : HyperStore Ctx V E) = _
    rw [mapSet_mapSet_same]
    rfl
  refine ⟨h1, ?_, ?_⟩
  · rw [h1]
    exact mapGet_mapSet_self s.functions name d2
  · rw [h1]
    exact List.mem_map_of_mem (fun kv => hyperFunctionToTool kv.1 kv.2)
      (mapSet_mem_self s.functions name d2)

/-- C7: `callTool` rewraps only validation failures: when the name is
registered, a JSON parse failure propagates the parser's error with no
synthesized message and no handler invocation, and a handler failure — a
synchronous throw or a rejected promise — propagates the handler's error
unmodified. -/
theorem callTool_propagates_errors {Ctx V E : Type}
    (jsonParse : String → Except String Json) (s : HyperStore Ctx V E)
    (data : ToolCall) (context : Ctx) (hf : HyperFunctionData Ctx V E)
    (hlook : mapGet s.functions data.function.name = some hf) :
    (∀ e, jsonParse data.function.arguments = .error e →
        s.callTool jsonParse data context = (.error (.jsonParseError e), [])) ∧
    (∀ parsed validated e,
        jsonParse data.function.arguments = .ok parsed →
        hf._schema.safeParse parsed = some validated →
        (hf._handler validated context = .raise e →
            s.callTool jsonParse data context =
              (.error (.handlerError e), [(validated, context)])) ∧
        (hf._handler validated context = .promise (.error e) →
            s.callTool jsonParse data context =
              (.error (.handlerError e), [(validated, context)]))) := by
  constructor
  · intro e he
    simp [HyperStore.callTool, hlook, he]
  · intro parsed validated e hparse hvalid
    constructor
    · intro hh
      simp [HyperStore.callTool, hlook, hparse, hvalid, hh]
    · intro hh
      simp [HyperStore.callTool, hlook, hparse, hvalid, hh]

/-- C7 witness: an argument string the parser rejects makes callTool fail
with that parse error as-is, with no handler invocation. -/
theorem callTool_propagates_errors_witness :
    demoStore.callTool demoParse ⟨⟨"add_two", "not json"⟩⟩ () =
      (.error (.jsonParseError "SyntaxError: Unexpected token"), []) :=
  (callTool_propagates_errors demoParse demoStore ⟨⟨"add_two", "not json"⟩⟩ ()
    demoHF rfl).1 "SyntaxError: Unexpected token" rfl

/-- C8: the execution context is opaque to the dispatcher: every handler
invocation receives exactly the caller-supplied context value, and dispatch
is natural in the context — running a store whose handlers pre-apply a
re-indexing function to the context is the same as running the original
store at the re-indexed context, both in result and in invocations. -/
theorem callTool_context_frame {Ctx Ctx2 V E : Type}
    (jsonParse : String → Except String Json) (data : ToolCall)
    (context : Ctx) (φ : Ctx → Ctx2) (s2 : HyperStore Ctx2 V E) :
    (∀ (s : HyperStore Ctx V E) a c,
        (a, c) ∈ (s.callTool jsonParse data context).2 → c = context) ∧
    ((s2.mapCtx φ).callTool jsonParse data context).1 =
      (s2.callTool jsonParse data (φ context)).1 ∧
    ((s2.mapCtx φ).callTool jsonParse data context).2.map
        (fun ac => (ac.1, φ ac.2)) =
      (s2.callTool jsonParse data (φ context)).2 := by
  refine ⟨?_, (callTool_mapCtx jsonParse φ s2 data context).1,
    (callTool_mapCtx jsonParse φ s2 data context).2⟩
  intro s a c hmem
  rcases callTool_trace_shape jsonParse s data context with h | ⟨validated, h⟩
  · rw [h] at hmem
    exact absurd hmem (List.not_mem_nil _)
  · rw [h] at hmem
    exact congrArg Prod.snd (List.mem_singleton.mp hmem)

/-- C8 witness: a handler that returns its context observes exactly the
caller-supplied value, and doubling the context before dispatch equals
dispatching the doubled context. -/
theorem callTool_context_frame_witness :
    (7 : Int) = 7 ∧
    ((ctxStore.mapCtx (fun c : Int => c * 2)).callTool ctxParse
        ⟨⟨"get_ctx", emptyObjArgs⟩⟩ 7).1 =
      (ctxStore.callTool ctxParse ⟨⟨"get_ctx", emptyObjArgs⟩⟩ 14).1 :=
  ⟨(callTool_context_frame ctxParse ⟨⟨"get_ctx", emptyObjArgs⟩⟩ 7
      (fun c : Int => c * 2) ctxStore).1 ctxStore [] 7
      (show ([], (7 : Int)) ∈ [(([] : List (String × Json)), (7 : Int))] from
        List.mem_singleton.mpr rfl),
    (callTool_context_frame ctxParse ⟨⟨"get_ctx", emptyObjArgs⟩⟩ 7
      (fun c : Int => c * 2) ctxStore).2.1⟩

/-- C9: a definition built by `hyper` whose named arguments are all optional
(in particular, an empty argument map) converts to a schema with no
`required` field, so the exported `parameters` collapses to the empty
object — the type and properties, including per-argument documentation, are
dropped even when named arguments exist. -/
theorem hyper_optional_args_empty_parameters {Ctx V E : Type}
    (name description : String) (args : List (String × ZodField))
    (handler : List (String × Json) → Ctx → HandlerOutcome V E)
    (h : ∀ p ∈ args, p.2.optional = true) :
    (zodToJsonSchema (hyper description args handler)._schema).required? = none ∧
    (hyperFunctionToTool name (hyper description args handler)).function.parameters =
      Json.obj [] := by
  have hreq : args.filter (fun kv => !kv.2.optional) = [] := by
    rw [List.filter_eq_nil_iff]
    intro p hp
    simp [h p hp]
  have hr : (zodToJsonSchema (hyper description args handler)._schema).required? = none := by
    show (if ((args.filter (fun kv => !kv.2.optional)).map Prod.fst).isEmpty then none
        else some ((args.filter (fun kv => !kv.2.optional)).map Prod.fst)) = none
    rw [hreq]
    rfl
  refine ⟨hr, ?_⟩
  have hp : (hyperFunctionToTool name (hyper description args handler)).function.parameters =
      toolParameters (zodToJsonSchema (hyper description args handler)._schema) := rfl
  rw [hp]
  unfold toolParameters
  rw [hr]
  rfl

/-- C9 witness: one optional, documented string argument still yields the
empty parameters object. -/
theorem hyper_optional_args_empty_parameters_witness :
    (hyperFunctionToTool "noop"
        (hyper "does nothing" [("note", ⟨.string, true, some "a note"⟩)]
          (fun _ (_ : Unit) => (.value 0 : HandlerOutcome Int String)))).function.parameters =
      Json.obj [] :=
  (hyper_optional_args_empty_parameters "noop" "does nothing"
    [("note", ⟨.string, true, some "a note"⟩)]
    (fun _ (_ : Unit) => (.value 0 : HandlerOutcome Int String))
    (by intro p hp; rw [List.mem_singleton] at hp; rw [hp])).2

/-- C10: registries enumerate in insertion order: a nodup initial map is
kept exactly as given, `set` with a fresh name appends at the end, `set` on
an existing name keeps the key order unchanged, and `asTools` lists
descriptor names in exactly the map's order. -/
theorem asTools_insertion_order {Ctx V E : Type}
    (entries : List (String × HyperFunctionData Ctx V E))
    (s : HyperStore Ctx V E) (name : String) (d : HyperFunctionData Ctx V E) :
    ((entries.map Prod.fst).Nodup → (hyperStore entries).functions = entries) ∧
    (name ∉ s.functions.map Prod.fst →
      (s.set name d).functions = s.functions ++ [(name, d)]) ∧
    (name ∈ s.functions.map Prod.fst →
      (s.set name d).functions.map Prod.fst = s.functions.map Prod.fst) ∧
    s.asTools.map (fun t => t.function.name) = s.functions.map Prod.fst := by
  refine ⟨fun hd => newMap_of_nodup entries hd,
    fun h => mapSet_of_not_mem_keys h d,
    fun h => mapSet_keys_of_mem_keys h d, ?_⟩
  unfold HyperStore.asTools
  rw [List.map_map]
  rfl

/-- C10 witness: adding a fresh name to the demo registry appends it after
the existing entry. -/
theorem asTools_insertion_order_witness :
    (demoStore.set "another" demoHF).functions =
      demoStore.functions ++ [("another", demoHF)] :=
  (asTools_insertion_order [] demoStore "another" demoHF).2.1 (by decide)
